import Mathlib

/-!
Verification of the Crong Trader trading-cycle orchestrator.

The definitions below are a shallow embedding of the repository's
JavaScript source:

* `src/llm-analyzer.js` — indicator engine (`calculateRSI`, `calculateSMA`,
  `calculateBollinger`, `calculateMACD`, `calculateEMA`) and the pair
  selection verdict logic of `selectBestPair` (lines 312-330, after the
  JSON payload has been extracted from the oracle reply);
* `src/utils.js` — `calculateProfitRate`;
* `src/index.js` — the single-trade state machine `tradingCycle`
  (lines 205-388) and the scheduler's inner trade loop with its
  consecutive-loss circuit breaker (`main`, lines 441-475).

Numbers are modelled as rationals (`ℚ`); JavaScript exceptions are
modelled with `Except`, where every fallible collaborator call is a field
of `TradeEnv` and a thrown exception propagates through the explicit
`match` chains exactly as an exception unwinds to the enclosing
`try`/`catch`.  The JavaScript falsiness test `x || y` on numbers is
modelled by `numOr`, which falls back both on a missing value and on `0`.
-/

-- ============================================================
-- Indicator engine (src/llm-analyzer.js, lines 202-264)
-- ============================================================

/-- One iteration of the gains/losses accumulation loop inside
`calculateRSI` (llm-analyzer.js lines 205-210): for index `i`,
`diff = prices[i-1] - prices[i]`; positive diffs accumulate into gains,
otherwise `losses -= diff`. -/
def glStep (prices : List ℚ) (gl : ℚ × ℚ) (i : ℕ) : ℚ × ℚ :=
  let diff := prices.getD (i - 1) 0 - prices.getD i 0
  if 0 < diff then (gl.1 + diff, gl.2) else (gl.1, gl.2 - diff)

/-- The `(gains, losses)` pair after the loop `for i = 1 .. period` of
`calculateRSI`. -/
def gainsLosses (prices : List ℚ) (period : ℕ) : ℚ × ℚ :=
  (List.range' 1 period).foldl (glStep prices) (0, 0)

/-- `avgGain = gains / period` (llm-analyzer.js line 212). -/
def avgGain (prices : List ℚ) (period : ℕ) : ℚ :=
  (gainsLosses prices period).1 / period

/-- `avgLoss = losses / period` (llm-analyzer.js line 213). -/
def avgLoss (prices : List ℚ) (period : ℕ) : ℚ :=
  (gainsLosses prices period).2 / period

/-- `calculateRSI` (llm-analyzer.js lines 202-218): `null` when fewer than
`period + 1` closes, `100` when the average loss is `0`, otherwise
`100 - 100 / (1 + avgGain / avgLoss)`. -/
def calculateRSI (prices : List ℚ) (period : ℕ) : Option ℚ :=
  if prices.length < period + 1 then none
  else if avgLoss prices period = 0 then some 100
  else some (100 - 100 / (1 + avgGain prices period / avgLoss prices period))

/-- `calculateSMA` (llm-analyzer.js lines 221-225): mean of the first
`period` closes, `null` on insufficient data. -/
def calculateSMA (prices : List ℚ) (period : ℕ) : Option ℚ :=
  if prices.length < period then none
  else some ((prices.take period).sum / period)

/-- Result record of `calculateBollinger`. -/
structure BollingerBands where
  upper : ℝ
  middle : ℝ
  lower : ℝ
  bandwidth : ℝ

/-- `calculateBollinger` (llm-analyzer.js lines 228-241).  The JavaScript
guard is `if (!sma) return null`, a falsiness test: it rejects both the
`null` sentinel and an SMA equal to `0`. -/
noncomputable def calculateBollinger (prices : List ℚ) (period : ℕ) :
    Option BollingerBands :=
  match calculateSMA prices period with
  | none => none
  | some sma =>
    if sma = 0 then none
    else
      let squaredDiffs := (prices.take period).map fun p => (p - sma) ^ 2
      let stdDev : ℝ := Real.sqrt ((squaredDiffs.sum / period : ℚ) : ℝ)
      some ⟨(sma : ℝ) + stdDev * 2, (sma : ℝ), (sma : ℝ) - stdDev * 2,
        (((sma : ℝ) + stdDev * 2) - ((sma : ℝ) - stdDev * 2)) / (sma : ℝ) * 100⟩

/-- `calculateEMA` (llm-analyzer.js lines 254-264): the seed is the mean of
`prices.slice(-period)` (the oldest `period` closes, the series being
newest-first), then the loop walks indices `prices.length - period - 1`
down to `0` applying `ema = (price - ema) * multiplier + ema`. -/
def calculateEMA (prices : List ℚ) (period : ℕ) : Option ℚ :=
  if prices.length < period then none
  else
    let multiplier : ℚ := 2 / ((period : ℚ) + 1)
    let seed : ℚ := (prices.drop (prices.length - period)).sum / period
    some ((prices.take (prices.length - period)).reverse.foldl
      (fun ema p => (p - ema) * multiplier + ema) seed)

/-- Result record of `calculateMACD`. -/
structure MACDResult where
  macdLine : ℚ
  ema12 : ℚ
  ema26 : ℚ
  deriving DecidableEq

/-- `calculateMACD` (llm-analyzer.js lines 244-251).  The JavaScript guard
`if (!ema12 || !ema26) return null` is a falsiness test: it rejects both
the `null` sentinel and an EMA equal to `0`. -/
def calculateMACD (prices : List ℚ) : Option MACDResult :=
  match calculateEMA prices 12, calculateEMA prices 26 with
  | some e12, some e26 =>
    if e12 = 0 ∨ e26 = 0 then none else some ⟨e12 - e26, e12, e26⟩
  | _, _ => none

-- ============================================================
-- Profit rate (src/utils.js, lines 532-537) and fee config
-- ============================================================

/-- `calculateProfitRate(buyPrice, sellPrice, feeRate)` from utils.js:
fees are charged on both legs, and the net profit is reported relative to
the buy price, in percent. -/
def calculateProfitRate (buyPrice sellPrice feeRate : ℚ) : ℚ :=
  let buyFee := buyPrice * feeRate
  let sellFee := sellPrice * feeRate
  let profit := sellPrice - buyPrice - buyFee - sellFee
  profit / buyPrice * 100

/-- `config.TRADE.FEE_RATE = 0.0005` (config.js line 99). -/
def FEE_RATE : ℚ := 5 / 10000

-- ============================================================
-- Pair selection verdict (src/llm-analyzer.js, lines 312-330)
-- ============================================================

/-- A parsed oracle reply, as extracted from the LLM response JSON by
`selectBestPair` in llm-analyzer.js. -/
structure OracleReply where
  noEntry : Bool
  selectedPair : String
  koreanName : String
  confidence : ℚ
  deriving DecidableEq

/-- The verdict-resolution logic of `selectBestPair` (llm-analyzer.js
lines 317-329): `result.noEntry === true` returns `null`, then
`result.confidence < 0.5` returns `null`, otherwise the reply is the
selected pair. -/
def selectBestPair (reply : OracleReply) : Option OracleReply :=
  if reply.noEntry = true then none
  else if reply.confidence < 1 / 2 then none
  else some reply

-- ============================================================
-- Order execution state machine (src/index.js, lines 205-388)
-- ============================================================

/-- Exceptions are modelled by their message. -/
abbrev Err := String

/-- Order status as returned by the exchange (`orderInfo.state`). -/
inductive OrderStatus where
  | wait
  | done
  | cancel
  deriving DecidableEq

/-- One exchange order-status reply.  `price` is the result of
`parseFloat(orderInfo.price)`: `none` when the field is missing or not a
number.  `tradePrice` models `orderInfo.trades?.[0]?.price`, used by the
sell leg's fallback chain. -/
structure OrderInfo where
  status : OrderStatus
  price : Option ℚ
  executedVolume : ℚ
  tradePrice : Option ℚ
  deriving DecidableEq

/-- The trade plan returned by `llm.analyzeTradePrices`. -/
structure TradePlan where
  buyPrice : ℚ
  takeProfit : ℚ
  stopLoss : ℚ
  deriving DecidableEq

/-- Observable order placements performed by one trade. -/
inductive OrderEvent where
  | limitBuy (price volume : ℚ)
  | cancelOrder
  | marketBuy (notional : ℚ)
  | marketSell (volume : ℚ)
  deriving DecidableEq

/-- The environment of one trade attempt: the reply (or thrown exception)
of every collaborator call made by `tradingCycle`, in source order.
`buyPolls` is the sequence of `getOrder` replies observed inside the
`ORDER_TIMEOUT` window (index.js lines 253-263); `monitorTicks` is the
sequence of trade prices observed by the monitoring loop (lines 295-321). -/
structure TradeEnv where
  marketData : Except Err Unit
  plan : Except Err TradePlan
  createTrade : Except Err ℕ
  limitBuyResp : Except Err Unit
  buyOrderSent : Except Err Unit
  buyPolls : List (Except Err OrderInfo)
  cancelResp : Except Err Unit
  marketBuyResp : Except Err Unit
  marketBuyInfo : Except Err OrderInfo
  buyComplete : Except Err Unit
  monitorTicks : List (Except Err ℚ)
  sellResp : Except Err Unit
  sellInfo1 : Except Err OrderInfo
  sellInfo2 : Except Err OrderInfo
  sellComplete : Except Err Unit
  notionSave : Except Err Unit

/-- `const buyVolume = (SEED_MONEY * 0.9995) / tradeAnalysis.buyPrice`
(index.js line 236). -/
def buyVolume (seedMoney buyPrice : ℚ) : ℚ :=
  seedMoney * (9995 / 10000) / buyPrice

/-- JavaScript `x || fallback` on a parsed number: the fallback is taken
when the value is missing (`parseFloat` gave `NaN`) or when it is `0`,
since both are falsy. -/
def numOr (v : Option ℚ) (fallback : ℚ) : ℚ :=
  match v with
  | none => fallback
  | some x => if x = 0 then fallback else x

/-- The buy-fill polling loop (index.js lines 253-263): scan the
`getOrder` replies observed within the timeout window; stop at the first
terminal state (`done` or `cancel`); `none` when the window closes with no
terminal state observed; a thrown exception propagates. -/
def pollBuy : List (Except Err OrderInfo) → Except Err (Option OrderInfo)
  | [] => Except.ok none
  | Except.error e :: _ => Except.error e
  | Except.ok info :: rest =>
    if info.status = OrderStatus.done ∨ info.status = OrderStatus.cancel then
      Except.ok (some info)
    else pollBuy rest

/-- Result of the buy leg: the orders placed, the fill price after the
`parseFloat(orderInfo.price) || tradeAnalysis.buyPrice` fallback
(index.js line 275), and the executed volume. -/
structure BuyResult where
  events : List OrderEvent
  fillPrice : ℚ
  executedVolume : ℚ
  deriving DecidableEq

/-- The unfilled-limit-order fallback (index.js lines 266-272): cancel the
limit order, submit a market buy for the full `SEED_MONEY`, and read the
resulting order. -/
def fallbackBuy (seedMoney : ℚ) (plan : TradePlan) (placed : List OrderEvent)
    (env : TradeEnv) : Except Err BuyResult :=
  match env.cancelResp with
  | Except.error e => Except.error e
  | Except.ok _ =>
    match env.marketBuyResp with
    | Except.error e => Except.error e
    | Except.ok _ =>
      match env.marketBuyInfo with
      | Except.error e => Except.error e
      | Except.ok mInfo =>
        Except.ok ⟨placed ++ [OrderEvent.cancelOrder, OrderEvent.marketBuy seedMoney],
          numOr mInfo.price plan.buyPrice, mInfo.executedVolume⟩

/-- The buy leg of `tradingCycle` (index.js lines 234-277): place the
limit buy sized by `buyVolume`, poll for a fill, and fall back to a
market buy when the limit order was not observed filled. -/
def buyLeg (seedMoney : ℚ) (plan : TradePlan) (env : TradeEnv) :
    Except Err BuyResult :=
  match env.limitBuyResp with
  | Except.error e => Except.error e
  | Except.ok _ =>
    match env.buyOrderSent with
    | Except.error e => Except.error e
    | Except.ok _ =>
      match pollBuy env.buyPolls with
      | Except.error e => Except.error e
      | Except.ok polled =>
        let placed := [OrderEvent.limitBuy plan.buyPrice
          (buyVolume seedMoney plan.buyPrice)]
        match polled with
        | some info =>
          if info.status = OrderStatus.done then
            Except.ok ⟨placed, numOr info.price plan.buyPrice, info.executedVolume⟩
          else fallbackBuy seedMoney plan placed env
        | none => fallbackBuy seedMoney plan placed env

/-- The two exit triggers of the monitoring loop. -/
inductive SellReason where
  | takeProfitHit
  | stopLossHit
  deriving DecidableEq

/-- The monitoring loop (index.js lines 295-321): poll the trade price;
exit with take-profit when `price >= takeProfit`, with stop-loss when
`price <= stopLoss`; there is no time-based exit, so an exhausted tick
trace means the loop is still running (`none`). -/
def monitor (takeProfit stopLoss : ℚ) :
    List (Except Err ℚ) → Except Err (Option SellReason)
  | [] => Except.ok none
  | Except.error e :: _ => Except.error e
  | Except.ok price :: rest =>
    if takeProfit ≤ price then Except.ok (some SellReason.takeProfitHit)
    else if price ≤ stopLoss then Except.ok (some SellReason.stopLossHit)
    else monitor takeProfit stopLoss rest

/-- Result of the sell leg: the market-sell event and the realized profit
rate. -/
structure SellResult where
  events : List OrderEvent
  profitRate : ℚ
  deriving DecidableEq

/-- The sell leg (index.js lines 323-356): market sell the executed
volume, confirm the fill (re-reading once when not yet `done`), and
compute the realized profit rate with `calculateProfitRate`.  The sell
price uses the falsiness chain
`parseFloat(price) || parseFloat(trades[0].price) || 0`. -/
def sellLeg (buyPrice executedVolume : ℚ) (env : TradeEnv) :
    Except Err SellResult :=
  match env.sellResp with
  | Except.error e => Except.error e
  | Except.ok _ =>
    match env.sellInfo1 with
    | Except.error e => Except.error e
    | Except.ok info1 =>
      match (if info1.status ≠ OrderStatus.done then env.sellInfo2
             else Except.ok info1) with
      | Except.error e => Except.error e
      | Except.ok info =>
        let sellPrice := numOr info.price (numOr info.tradePrice 0)
        match env.sellComplete with
        | Except.error e => Except.error e
        | Except.ok _ =>
          match env.notionSave with
          | Except.error e => Except.error e
          | Except.ok _ =>
            Except.ok ⟨[OrderEvent.marketSell executedVolume],
              calculateProfitRate buyPrice sellPrice FEE_RATE⟩

/-- The outcome strings returned to the scheduler: `'익절'` (take-profit),
`'손절'` (stop-loss), `'시간초과'` (timeout), `'error'`. -/
inductive TradeOutcome where
  | takeProfit
  | stopLoss
  | timeout
  | error
  deriving DecidableEq

/-- `sellReason` as returned by `tradingCycle` (index.js line 382). -/
def sellOutcome : SellReason → TradeOutcome
  | SellReason.takeProfitHit => TradeOutcome.takeProfit
  | SellReason.stopLossHit => TradeOutcome.stopLoss

/-- The body of the `try` block of `tradingCycle` (index.js lines
205-382).  `Except.error` is a thrown exception; `Except.ok none` is a run
whose monitoring loop has not yet triggered within the observed trace. -/
def tradeBody (seedMoney : ℚ) (env : TradeEnv) :
    Except Err (Option (TradeOutcome × ℚ)) :=
  match env.marketData with
  | Except.error e => Except.error e
  | Except.ok _ =>
    match env.plan with
    | Except.error e => Except.error e
    | Except.ok plan =>
      match env.createTrade with
      | Except.error e => Except.error e
      | Except.ok _ =>
        match buyLeg seedMoney plan env with
        | Except.error e => Except.error e
        | Except.ok buy =>
          match env.buyComplete with
          | Except.error e => Except.error e
          | Except.ok _ =>
            match monitor plan.takeProfit plan.stopLoss env.monitorTicks with
            | Except.error e => Except.error e
            | Except.ok none => Except.ok none
            | Except.ok (some reason) =>
              match sellLeg buy.fillPrice buy.executedVolume env with
              | Except.error e => Except.error e
              | Except.ok sell =>
                Except.ok (some (sellOutcome reason, sell.profitRate))

/-- `tradingCycle` with its trade-boundary `catch` (index.js lines
384-388): any exception is converted to the outcome `('error', 0)`. -/
def tradingCycle (seedMoney : ℚ) (env : TradeEnv) :
    Option (TradeOutcome × ℚ) :=
  match tradeBody seedMoney env with
  | Except.error _ => some (TradeOutcome.error, 0)
  | Except.ok r => r

-- ============================================================
-- Scheduler and circuit breaker (src/index.js, lines 411-475)
-- ============================================================

/-- The `consecutiveLosses` update for one trade outcome (index.js lines
450-471): stop-loss increments, take-profit resets to `0`, timeout and
error leave the counter unchanged. -/
def lossStep (losses : ℕ) : TradeOutcome → ℕ
  | TradeOutcome.stopLoss => losses + 1
  | TradeOutcome.takeProfit => 0
  | TradeOutcome.timeout => losses
  | TradeOutcome.error => losses

/-- How one episode (inner trade loop) ends: `suspend` is the circuit
breaker firing (sleep `MAX_CYCLE_TIME`, then re-scan, index.js lines
456-463); `abort` is the timeout/error branch (immediate break, lines
468-471); `exhausted` is the cycle-time window running out. -/
inductive EpisodeEnd where
  | suspend
  | abort
  | exhausted
  deriving DecidableEq

/-- The inner trade loop of `main` (index.js lines 445-475), as a function
of the sequence of trade outcomes available within the cycle window.
Returns the outcomes actually processed, the final `consecutiveLosses`,
and how the episode ended. -/
def runEpisode (losses : ℕ) : List TradeOutcome → List TradeOutcome × ℕ × EpisodeEnd
  | [] => ([], losses, EpisodeEnd.exhausted)
  | TradeOutcome.stopLoss :: rest =>
    if 2 ≤ losses + 1 then ([TradeOutcome.stopLoss], losses + 1, EpisodeEnd.suspend)
    else
      let r := runEpisode (losses + 1) rest
      (TradeOutcome.stopLoss :: r.1, r.2)
  | TradeOutcome.takeProfit :: rest =>
    let r := runEpisode 0 rest
    (TradeOutcome.takeProfit :: r.1, r.2)
  | TradeOutcome.timeout :: _ => ([TradeOutcome.timeout], losses, EpisodeEnd.abort)
  | TradeOutcome.error :: _ => ([TradeOutcome.error], losses, EpisodeEnd.abort)

/-- The sleep performed after the episode ends: only the circuit breaker's
`suspend` sleeps, for the full cycle duration (index.js line 461). -/
def episodeSleep (maxCycleTime : ℕ) : EpisodeEnd → ℕ
  | EpisodeEnd.suspend => maxCycleTime
  | EpisodeEnd.abort => 0
  | EpisodeEnd.exhausted => 0

/-- Helper for the circuit-breaker specification: on a reversed outcome
list, count the stop-loss outcomes encountered before the first
take-profit. -/
def lossesFromFront : List TradeOutcome → ℕ
  | [] => 0
  | TradeOutcome.takeProfit :: _ => 0
  | TradeOutcome.stopLoss :: rest => lossesFromFront rest + 1
  | TradeOutcome.timeout :: rest => lossesFromFront rest
  | TradeOutcome.error :: rest => lossesFromFront rest

/-- The specification-side count: the number of stop-loss outcomes in the
longest suffix unbroken by a take-profit. -/
def trailingLosses (outcomes : List TradeOutcome) : ℕ :=
  lossesFromFront outcomes.reverse

/-- The outer scheduler's reaction to a pair-selection verdict. -/
inductive OuterAction where
  | sleepAndRescan (ms : ℕ)
  | enterTradeLoop (pair : OracleReply)
  deriving DecidableEq

/-- The sleep performed by the cycle-level catch of `main`,
`await sleep(60000)` (index.js line 481). -/
def CYCLE_ERROR_SLEEP : ℕ := 60000

/-- The index.js `selectBestPair` wrapper (lines 171-176): it passes the
llm-layer verdict through, but its success log on line 174 reads
`result.selectedPair` (and `result.koreanName`, `result.confidence`) — a
property access on the verdict — so a `null` verdict makes the wrapper
throw a `TypeError` instead of returning `null` to the caller. -/
def selectBestPairWrapper (verdict : Option OracleReply) :
    Except Err (Option OracleReply) :=
  match verdict with
  | none => Except.error "TypeError: Cannot read properties of null"
  | some r => Except.ok (some r)

/-- The outer loop around the wrapper call (index.js lines 426-436
together with the cycle-level catch, lines 479-482): a thrown selection
error is caught by the cycle catch, which sleeps `60000` ms before the
outer loop re-scans; a returned `null` would sleep the full
`MAX_CYCLE_TIME` (lines 429-436) — a branch the wrapper's throw makes
unreachable; an entry verdict enters the inner trade loop. -/
def onSelection (maxCycleTime : ℕ) :
    Except Err (Option OracleReply) → OuterAction
  | Except.error _ => OuterAction.sleepAndRescan CYCLE_ERROR_SLEEP
  | Except.ok none => OuterAction.sleepAndRescan maxCycleTime
  | Except.ok (some pair) => OuterAction.enterTradeLoop pair

/-- The trades run by the chosen outer action: `tradingCycle` (and with it
`db.createTrade`) is reached only through `enterTradeLoop`; the
sleep-and-rescan branch runs no trade at all. -/
def actionTrades (seedMoney : ℚ) (envs : List TradeEnv) :
    OuterAction → List (Option (TradeOutcome × ℚ))
  | OuterAction.sleepAndRescan _ => []
  | OuterAction.enterTradeLoop _ => envs.map (tradingCycle seedMoney)

-- ============================================================
-- Concrete environments used by witnesses and counterexample
-- ============================================================

/-- A buy order filled at 100 for volume 1. -/
def okBuyInfo : OrderInfo := ⟨OrderStatus.done, some 100, 1, none⟩

/-- A sell order filled at 105 for volume 1. -/
def okSellInfo : OrderInfo := ⟨OrderStatus.done, some 105, 1, none⟩

/-- A fully successful trade environment: plan (100, 105, 95), limit buy
fills at 100, first monitored tick hits the take-profit. -/
def baseEnv : TradeEnv :=
  ⟨Except.ok (), Except.ok ⟨100, 105, 95⟩, Except.ok 1, Except.ok (),
   Except.ok (), [Except.ok okBuyInfo], Except.ok (), Except.ok (),
   Except.ok okBuyInfo, Except.ok (), [Except.ok 105], Except.ok (),
   Except.ok okSellInfo, Except.ok okSellInfo, Except.ok (), Except.ok ()⟩

/-- An environment whose oracle price-analysis call throws. -/
def oracleFailEnv : TradeEnv := { baseEnv with plan := Except.error "oracle" }

/-- An environment whose buy-fill window closes with no terminal order
state observed. -/
def timeoutEnv : TradeEnv := { baseEnv with buyPolls := [] }

/-- An environment whose limit buy fills with a reported price of `0`. -/
def zeroPriceEnv : TradeEnv :=
  { baseEnv with buyPolls := [Except.ok ⟨OrderStatus.done, some 0, 1, none⟩] }

-- ============================================================
-- Theorems
-- ============================================================

/-- C4: for all `buyPrice > 0`, `sellPrice` and `feeRate`, the realized
profit rate equals
`(sellPrice − buyPrice − buyPrice·feeRate − sellPrice·feeRate) / buyPrice × 100`,
with fees charged on both legs; in particular for `buyPrice = 100`,
`sellPrice = 105`, `feeRate = 0.0005` it equals exactly `4.8975` percent. -/
theorem profitRate_two_leg_fees (buyPrice sellPrice feeRate : ℚ)
    (h : 0 < buyPrice) :
    calculateProfitRate buyPrice sellPrice feeRate =
      (sellPrice - buyPrice - buyPrice * feeRate - sellPrice * feeRate) /
        buyPrice * 100 ∧
    calculateProfitRate 100 105 (5 / 10000) = 48975 / 10000 := by
  constructor
  · simp [calculateProfitRate]
  · norm_num [calculateProfitRate]

/-- Witness for C4 at `buyPrice = 100 > 0`, `sellPrice = 105`,
`feeRate = 0.0005`. -/
theorem profitRate_two_leg_fees_witness :
    calculateProfitRate 100 105 (5 / 10000) =
      (105 - 100 - 100 * (5 / 10000) - 105 * (5 / 10000)) / 100 * 100 ∧
    calculateProfitRate 100 105 (5 / 10000) = 48975 / 10000 :=
  profitRate_two_leg_fees 100 105 (5 / 10000) (by norm_num)

/-- C10: for every price list whose length is exactly `period`,
`calculateEMA prices period = calculateSMA prices period`: the EMA
recurrence loop performs zero iterations and only the seed mean remains. -/
theorem ema_window_eq_sma (prices : List ℚ) (period : ℕ)
    (h : prices.length = period) :
    calculateEMA prices period = calculateSMA prices period := by
  subst h
  simp [calculateEMA, calculateSMA]

/-- Witness for C10 at `prices = [4, 6]`, `period = 2`: both sides are the
seed mean `5`. -/
theorem ema_window_eq_sma_witness :
    calculateEMA [4, 6] 2 = calculateSMA [4, 6] 2 :=
  ema_window_eq_sma [4, 6] 2 (by decide)

/-- C1 (code bug): a `noEntry:true` oracle reply does resolve to the
`NoEntry` verdict (`none`) at the llm layer and no trade loop is entered
(so no TradeRecord is created), but the index.js `selectBestPair` wrapper
dereferences the `null` verdict in its success log (line 174) and throws a
`TypeError`, so the scheduler's `bestPair === null` branch — the claimed
sleep of the full cycle duration `MAX_CYCLE_TIME` (index.js lines
429-436) — is unreachable: the cycle-level catch sleeps `60000` ms
instead, which differs from the default `MAX_CYCLE_TIME` of `1800000` ms. -/
theorem selection_noEntry_crashes :
    selectBestPair ⟨true, "KRW-BTC", "BTC", 9 / 10⟩ = none ∧
    selectBestPairWrapper (selectBestPair ⟨true, "KRW-BTC", "BTC", 9 / 10⟩) =
      Except.error "TypeError: Cannot read properties of null" ∧
    (∀ mct : ℕ,
      onSelection mct
          (selectBestPairWrapper (selectBestPair ⟨true, "KRW-BTC", "BTC", 9 / 10⟩)) =
        OuterAction.sleepAndRescan CYCLE_ERROR_SLEEP) ∧
    OuterAction.sleepAndRescan CYCLE_ERROR_SLEEP ≠
      OuterAction.sleepAndRescan 1800000 ∧
    (∀ (seedMoney : ℚ) (envs : List TradeEnv) (mct : ℕ),
      actionTrades seedMoney envs
        (onSelection mct
          (selectBestPairWrapper (selectBestPair ⟨true, "KRW-BTC", "BTC", 9 / 10⟩))) =
        []) :=
  ⟨rfl, rfl, fun _ => rfl, by decide, fun _ _ _ => rfl⟩

/-- C8: the `null` sentinel is not only returned on insufficient history:
a window whose mean is exactly `0` makes `calculateBollinger` return the
sentinel even with enough data, and `calculateMACD` returns the sentinel
whenever `ema12` or `ema26` is exactly `0`, because both guard with a
JavaScript falsiness check rather than a length check. -/
theorem falsy_sentinel_guards :
    (∀ (prices : List ℚ) (period : ℕ), 1 ≤ period → period ≤ prices.length →
      calculateSMA prices period = some 0 →
      calculateBollinger prices period = none) ∧
    (∀ prices : List ℚ,
      calculateEMA prices 12 = some 0 ∨ calculateEMA prices 26 = some 0 →
      calculateMACD prices = none) := by
  constructor
  · intro prices period _ _ hsma
    unfold calculateBollinger
    rw [hsma]
    simp
  · intro prices h
    unfold calculateMACD
    rcases h with h | h
    · rw [h]
      cases calculateEMA prices 26 <;> simp
    · rw [h]
      cases calculateEMA prices 12 <;> simp

/-- Witness for C8: `[1, -1]` has window mean `0` with full history, and
twelve `0` closes give `ema12 = 0`. -/
theorem falsy_sentinel_guards_witness :
    calculateBollinger [1, -1] 2 = none ∧
    calculateMACD (List.replicate 12 0) = none :=
  ⟨falsy_sentinel_guards.1 [1, -1] 2 (by norm_num) (by simp)
      (by norm_num [calculateSMA]),
   falsy_sentinel_guards.2 (List.replicate 12 0)
      (Or.inl (by norm_num [calculateEMA, List.replicate]))⟩

/-- C7: every exception thrown inside one trade attempt is caught at the
trade boundary and converted to the outcome `('error', 0)`; on that
outcome the scheduler leaves `consecutiveLosses` unchanged (neither
increment nor reset) and ends the episode immediately (`abort`, forcing a
re-scan) with no breaker sleep. -/
theorem trade_error_boundary (seedMoney : ℚ) (env : TradeEnv) (e : Err)
    (h : tradeBody seedMoney env = Except.error e) :
    tradingCycle seedMoney env = some (TradeOutcome.error, 0) ∧
    (∀ (losses : ℕ) (rest : List TradeOutcome),
      runEpisode losses (TradeOutcome.error :: rest) =
        ([TradeOutcome.error], losses, EpisodeEnd.abort)) ∧
    (∀ mct : ℕ, episodeSleep mct EpisodeEnd.abort = 0) := by
  refine ⟨?_, fun _ _ => rfl, fun _ => rfl⟩
  unfold tradingCycle
  rw [h]

/-- Witness for C7: an environment whose oracle price-analysis call
throws. -/
theorem trade_error_boundary_witness :
    tradingCycle 100000 oracleFailEnv = some (TradeOutcome.error, 0) ∧
    (∀ (losses : ℕ) (rest : List TradeOutcome),
      runEpisode losses (TradeOutcome.error :: rest) =
        ([TradeOutcome.error], losses, EpisodeEnd.abort)) ∧
    (∀ mct : ℕ, episodeSleep mct EpisodeEnd.abort = 0) :=
  trade_error_boundary 100000 oracleFailEnv "oracle" (by rfl)

/-- Scanning past a take-profit never looks further: appending anything
after it leaves the count unchanged. -/
theorem lossesFromFront_append_of_mem (xs ys : List TradeOutcome)
    (h : TradeOutcome.takeProfit ∈ xs) :
    lossesFromFront (xs ++ ys) = lossesFromFront xs := by
  induction xs with
  | nil => exact absurd h (List.not_mem_nil _)
  | cons x rest ih =>
    cases x with
    | takeProfit => rfl
    | stopLoss =>
      have hx : TradeOutcome.takeProfit ∈ rest := by
        rcases List.mem_cons.mp h with h' | h'
        · exact absurd h' (by simp)
        · exact h'
      simp [lossesFromFront, ih hx]
    | timeout =>
      have hx : TradeOutcome.takeProfit ∈ rest := by
        rcases List.mem_cons.mp h with h' | h'
        · exact absurd h' (by simp)
        · exact h'
      simp [lossesFromFront, ih hx]
    | error =>
      have hx : TradeOutcome.takeProfit ∈ rest := by
        rcases List.mem_cons.mp h with h' | h'
        · exact absurd h' (by simp)
        · exact h'
      simp [lossesFromFront, ih hx]

/-- With no take-profit in the first segment, the count distributes over
append. -/
theorem lossesFromFront_append_of_not_mem (xs ys : List TradeOutcome)
    (h : TradeOutcome.takeProfit ∉ xs) :
    lossesFromFront (xs ++ ys) = lossesFromFront xs + lossesFromFront ys := by
  induction xs with
  | nil => simp [lossesFromFront]
  | cons x rest ih =>
    have hx : TradeOutcome.takeProfit ∉ rest :=
      fun hr => h (List.mem_cons_of_mem _ hr)
    cases x with
    | takeProfit => exact absurd (List.mem_cons_self _ _) h
    | stopLoss =>
      rw [List.cons_append]
      show lossesFromFront (rest ++ ys) + 1 = lossesFromFront rest + 1 + lossesFromFront ys
      rw [ih hx]
      omega
    | timeout =>
      rw [List.cons_append]
      show lossesFromFront (rest ++ ys) = lossesFromFront rest + lossesFromFront ys
      exact ih hx
    | error =>
      rw [List.cons_append]
      show lossesFromFront (rest ++ ys) = lossesFromFront rest + lossesFromFront ys
      exact ih hx

/-- Characterization of the `consecutiveLosses` fold: starting from `k`,
the final counter is the number of stop-losses since the last take-profit,
plus `k` when no take-profit occurred at all. -/
theorem foldl_lossStep_char (l : List TradeOutcome) (k : ℕ) :
    l.foldl lossStep k =
      (if TradeOutcome.takeProfit ∈ l then 0 else k) +
        lossesFromFront l.reverse := by
  induction l generalizing k with
  | nil => simp [lossesFromFront]
  | cons o rest ih =>
    rw [List.foldl_cons, ih (lossStep k o), List.reverse_cons]
    by_cases hm : TradeOutcome.takeProfit ∈ rest
    · have hmr : TradeOutcome.takeProfit ∈ rest.reverse := List.mem_reverse.mpr hm
      rw [lossesFromFront_append_of_mem _ _ hmr]
      simp [hm, List.mem_cons]
    · have hmr : TradeOutcome.takeProfit ∉ rest.reverse :=
        fun hr => hm (List.mem_reverse.mp hr)
      rw [lossesFromFront_append_of_not_mem _ _ hmr]
      cases o with
      | takeProfit => simp [lossStep, hm, lossesFromFront, List.mem_cons]
      | stopLoss =>
        simp [lossStep, hm, lossesFromFront, List.mem_cons]
        omega
      | timeout => simp [lossStep, hm, lossesFromFront, List.mem_cons]
      | error => simp [lossStep, hm, lossesFromFront, List.mem_cons]

/-- Invariant of the inner trade loop: starting from a counter `k ≤ 1`,
the final counter is the `lossStep` fold over the processed trace, the
loop suspends exactly when the counter reaches `2`, and the counter never
exceeds `2`. -/
theorem runEpisode_char (l : List TradeOutcome) (k : ℕ) (hk : k ≤ 1) :
    (runEpisode k l).1.foldl lossStep k = (runEpisode k l).2.1 ∧
    ((runEpisode k l).2.2 = EpisodeEnd.suspend ↔ (runEpisode k l).2.1 = 2) ∧
    (runEpisode k l).2.1 ≤ 2 := by
  induction l generalizing k with
  | nil =>
    refine ⟨rfl, ?_, ?_⟩
    · show EpisodeEnd.exhausted = EpisodeEnd.suspend ↔ k = 2
      constructor
      · intro h; exact absurd h (by simp)
      · intro h; omega
    · show k ≤ 2
      omega
  | cons o rest ih =>
    cases o with
    | stopLoss =>
      by_cases h2 : 2 ≤ k + 1
      · simp only [runEpisode, if_pos h2]
        refine ⟨rfl, ?_, ?_⟩
        · exact ⟨fun _ => by omega, fun _ => trivial⟩
        · show k + 1 ≤ 2
          omega
      · simp only [runEpisode, if_neg h2]
        have hk0 : k = 0 := by omega
        subst hk0
        obtain ⟨ih1, ih2, ih3⟩ := ih 1 (by omega)
        exact ⟨by simpa [lossStep] using ih1, ih2, ih3⟩
    | takeProfit =>
      simp only [runEpisode]
      obtain ⟨ih1, ih2, ih3⟩ := ih 0 (by omega)
      exact ⟨by simpa [lossStep] using ih1, ih2, ih3⟩
    | timeout =>
      simp only [runEpisode]
      refine ⟨rfl, ?_, ?_⟩
      · show EpisodeEnd.abort = EpisodeEnd.suspend ↔ k = 2
        constructor
        · intro h; exact absurd h (by simp)
        · intro h; omega
      · show k ≤ 2
        omega
    | error =>
      simp only [runEpisode]
      refine ⟨rfl, ?_, ?_⟩
      · show EpisodeEnd.abort = EpisodeEnd.suspend ↔ k = 2
        constructor
        · intro h; exact absurd h (by simp)
        · intro h; omega
      · show k ≤ 2
        omega

/-- C2: for every outcome sequence, the `consecutiveLosses` counter after
the episode processes its trace equals the number of stop-loss outcomes in
the longest suffix of the processed trace unbroken by a take-profit; the
suspend decision (sleep the cycle duration, then force a re-scan) fires
exactly when that count reaches `2`, and the count never exceeds `2`. -/
theorem circuit_breaker_consecutive_losses (outcomes : List TradeOutcome)
    (mct : ℕ) :
    (runEpisode 0 outcomes).2.1 = trailingLosses (runEpisode 0 outcomes).1 ∧
    ((runEpisode 0 outcomes).2.2 = EpisodeEnd.suspend ↔
      (runEpisode 0 outcomes).2.1 = 2) ∧
    (runEpisode 0 outcomes).2.1 ≤ 2 ∧
    ((runEpisode 0 outcomes).2.2 = EpisodeEnd.suspend →
      episodeSleep mct (runEpisode 0 outcomes).2.2 = mct) := by
  obtain ⟨h1, h2, h3⟩ := runEpisode_char outcomes 0 (by omega)
  refine ⟨?_, h2, h3, ?_⟩
  · rw [← h1, foldl_lossStep_char, trailingLosses]
    simp
  · intro hs
    rw [hs]
    rfl

/-- Witness for C2 at the trace `[stop-loss, stop-loss]`: the counter ends
at `2` and the breaker suspends for the full cycle duration. -/
theorem circuit_breaker_consecutive_losses_witness :
    (runEpisode 0 [TradeOutcome.stopLoss, TradeOutcome.stopLoss]).2.1 =
      trailingLosses
        (runEpisode 0 [TradeOutcome.stopLoss, TradeOutcome.stopLoss]).1 ∧
    ((runEpisode 0 [TradeOutcome.stopLoss, TradeOutcome.stopLoss]).2.2 =
        EpisodeEnd.suspend ↔
      (runEpisode 0 [TradeOutcome.stopLoss, TradeOutcome.stopLoss]).2.1 = 2) ∧
    (runEpisode 0 [TradeOutcome.stopLoss, TradeOutcome.stopLoss]).2.1 ≤ 2 ∧
    ((runEpisode 0 [TradeOutcome.stopLoss, TradeOutcome.stopLoss]).2.2 =
        EpisodeEnd.suspend →
      episodeSleep 1800000
        (runEpisode 0 [TradeOutcome.stopLoss, TradeOutcome.stopLoss]).2.2 =
        1800000) :=
  circuit_breaker_consecutive_losses
    [TradeOutcome.stopLoss, TradeOutcome.stopLoss] 1800000

/-- A successful fallback buy always records: cancel the limit order, then
a market buy for the full seed money. -/
theorem fallbackBuy_ok_events (seedMoney : ℚ) (plan : TradePlan)
    (placed : List OrderEvent) (env : TradeEnv) (res : BuyResult)
    (h : fallbackBuy seedMoney plan placed env = Except.ok res) :
    res.events =
      placed ++ [OrderEvent.cancelOrder, OrderEvent.marketBuy seedMoney] := by
  unfold fallbackBuy at h
  split at h
  · exact absurd h (by simp)
  split at h
  · exact absurd h (by simp)
  split at h
  · exact absurd h (by simp)
  rw [Except.ok.injEq] at h
  rw [← h]

/-- When the limit buy is not observed filled (window exhausted, or a
terminal non-`done` state observed), a successful buy leg cancelled the
limit order and market-bought the full seed money. -/
theorem buyLeg_unfilled_fallback (seedMoney : ℚ) (plan : TradePlan)
    (env : TradeEnv) (res : BuyResult)
    (hpoll : pollBuy env.buyPolls = Except.ok none ∨
      (∃ info, pollBuy env.buyPolls = Except.ok (some info) ∧
        info.status ≠ OrderStatus.done))
    (h : buyLeg seedMoney plan env = Except.ok res) :
    res.events =
      [OrderEvent.limitBuy plan.buyPrice (buyVolume seedMoney plan.buyPrice),
        OrderEvent.cancelOrder, OrderEvent.marketBuy seedMoney] := by
  unfold buyLeg at h
  split at h
  · exact absurd h (by simp)
  split at h
  · exact absurd h (by simp)
  split at h
  · exact absurd h (by simp)
  next polled hpolled =>
    split at h
    · next info =>
      split at h
      · next hdone =>
        rcases hpoll with hp | ⟨i, hp, hnd⟩
        · rw [hpolled] at hp
          exact absurd hp (by simp)
        · rw [hpolled] at hp
          rw [Except.ok.injEq, Option.some.injEq] at hp
          subst hp
          exact absurd hdone hnd
      · exact fallbackBuy_ok_events _ _ _ _ _ h
    · exact fallbackBuy_ok_events _ _ _ _ _ h

/-- C3 counterexample: the polled buy order carries a reported price
(`some 0`, i.e. the order does **not** lack a reported price), yet the
fill price used is the planned `100`, not the reported `0` — the code
tests JavaScript falsiness (`parseFloat(orderInfo.price) ||
tradeAnalysis.buyPrice`), so the fallback also fires on a reported price
of `0`, refuting "falls back ... only when the order lacks a reported
price". -/
theorem buy_fillPrice_zero_cex :
    buyLeg 100000 ⟨100, 105, 95⟩ zeroPriceEnv =
      Except.ok ⟨[OrderEvent.limitBuy 100 (1999 / 2)], 100, 1⟩ ∧
    zeroPriceEnv.buyPolls =
      [Except.ok ⟨OrderStatus.done, some 0, 1, none⟩] ∧
    (100 : ℚ) ≠ 0 := by
  refine ⟨?_, rfl, by norm_num⟩
  norm_num [buyLeg, fallbackBuy, pollBuy, numOr, buyVolume, zeroPriceEnv,
    baseEnv, okBuyInfo, okSellInfo]

/-- C3 (amended): the limit-buy volume is
`(capital × (1 − feeRate)) / buyPrice` with `feeRate = 0.0005`; whenever
the limit buy is not observed filled within the order timeout, the state
machine cancels the limit order and submits a market buy sized to the full
allocated capital before proceeding to the bought state; and the fill
price falls back to the planned `buyPrice` exactly when the order's
reported price is missing or parses to `0` (a falsiness test, not an
absence test). -/
theorem buy_sizing_and_fallback :
    (∀ seedMoney buyPrice : ℚ,
      buyVolume seedMoney buyPrice = seedMoney * (1 - FEE_RATE) / buyPrice) ∧
    (∀ (seedMoney : ℚ) (plan : TradePlan) (env : TradeEnv) (res : BuyResult),
      (pollBuy env.buyPolls = Except.ok none ∨
        (∃ info, pollBuy env.buyPolls = Except.ok (some info) ∧
          info.status ≠ OrderStatus.done)) →
      buyLeg seedMoney plan env = Except.ok res →
      res.events =
        [OrderEvent.limitBuy plan.buyPrice (buyVolume seedMoney plan.buyPrice),
          OrderEvent.cancelOrder, OrderEvent.marketBuy seedMoney]) ∧
    (∀ planned : ℚ,
      numOr none planned = planned ∧
      numOr (some 0) planned = planned ∧
      ∀ x : ℚ, x ≠ 0 → numOr (some x) planned = x) := by
  refine ⟨?_, ?_, ?_⟩
  · intro s p
    norm_num [buyVolume, FEE_RATE]
  · exact fun s plan env res hp h => buyLeg_unfilled_fallback s plan env res hp h
  · intro planned
    refine ⟨rfl, by simp [numOr], ?_⟩
    intro x hx
    simp [numOr, hx]

/-- Witness for C3 (amended): concrete sizing at seed `100000` and price
`100`, the timeout-fallback event trace on `timeoutEnv`, and the three
fill-price cases. -/
theorem buy_sizing_and_fallback_witness :
    buyVolume 100000 100 = 100000 * (1 - FEE_RATE) / 100 ∧
    (⟨[OrderEvent.limitBuy 100 (1999 / 2), OrderEvent.cancelOrder,
        OrderEvent.marketBuy 100000], 100, 1⟩ : BuyResult).events =
      [OrderEvent.limitBuy (100 : ℚ) (buyVolume 100000 100),
        OrderEvent.cancelOrder, OrderEvent.marketBuy 100000] ∧
    numOr none (100 : ℚ) = 100 ∧
    numOr (some 0) (100 : ℚ) = 100 ∧
    numOr (some 42) (100 : ℚ) = 42 :=
  ⟨buy_sizing_and_fallback.1 100000 100,
   buy_sizing_and_fallback.2.1 100000 ⟨100, 105, 95⟩ timeoutEnv
     ⟨[OrderEvent.limitBuy 100 (1999 / 2), OrderEvent.cancelOrder,
        OrderEvent.marketBuy 100000], 100, 1⟩
     (Or.inl rfl)
     (by norm_num [buyLeg, fallbackBuy, pollBuy, numOr, buyVolume, timeoutEnv,
        baseEnv, okBuyInfo, okSellInfo]),
   (buy_sizing_and_fallback.2.2 100).1,
   (buy_sizing_and_fallback.2.2 100).2.1,
   (buy_sizing_and_fallback.2.2 100).2.2 42 (by norm_num)⟩

/-- A trade body that completes without an exception and with a triggered
exit produced its outcome through `sellOutcome`: only the take-profit or
stop-loss trigger exits the monitoring loop. -/
theorem tradeBody_ok_some (seedMoney : ℚ) (env : TradeEnv)
    (p : TradeOutcome × ℚ)
    (h : tradeBody seedMoney env = Except.ok (some p)) :
    p.1 = TradeOutcome.takeProfit ∨ p.1 = TradeOutcome.stopLoss := by
  unfold tradeBody at h
  split at h
  · exact absurd h (by simp)
  split at h
  · exact absurd h (by simp)
  split at h
  · exact absurd h (by simp)
  split at h
  · exact absurd h (by simp)
  split at h
  · exact absurd h (by simp)
  split at h
  · exact absurd h (by simp)
  · exact absurd h (by simp)
  next reason hmon =>
    split at h
    · exact absurd h (by simp)
    rw [Except.ok.injEq, Option.some.injEq] at h
    cases reason with
    | takeProfitHit => left; rw [← h]; rfl
    | stopLossHit => right; rw [← h]; rfl

/-- C9: every terminating run of `tradingCycle` returns an outcome in
`{take-profit, stop-loss, error}`: the monitoring loop can only be exited
by the take-profit or stop-loss price trigger, so the scheduler's
timeout (`'시간초과'`) branch is unreachable. -/
theorem tradingCycle_outcome_set (seedMoney : ℚ) (env : TradeEnv)
    (out : TradeOutcome × ℚ) (h : tradingCycle seedMoney env = some out) :
    (out.1 = TradeOutcome.takeProfit ∨ out.1 = TradeOutcome.stopLoss ∨
      out.1 = TradeOutcome.error) ∧
    out.1 ≠ TradeOutcome.timeout := by
  have hmem : out.1 = TradeOutcome.takeProfit ∨ out.1 = TradeOutcome.stopLoss ∨
      out.1 = TradeOutcome.error := by
    unfold tradingCycle at h
    cases hb : tradeBody seedMoney env with
    | error e =>
      rw [hb] at h
      rw [show (match (Except.error e : Except Err (Option (TradeOutcome × ℚ))) with
          | Except.error _ => some (TradeOutcome.error, (0 : ℚ))
          | Except.ok r => r) = some (TradeOutcome.error, (0 : ℚ)) from rfl,
        Option.some.injEq] at h
      right; right
      rw [← h]
    | ok r =>
      rw [hb] at h
      have hr : r = some out := h
      rcases tradeBody_ok_some seedMoney env out (by rw [hb, hr]) with h1 | h1
      · exact Or.inl h1
      · exact Or.inr (Or.inl h1)
  refine ⟨hmem, ?_⟩
  rcases hmem with h1 | h1 | h1 <;> · rw [h1]; simp

/-- Witness for C9: the fully successful environment produces the
take-profit outcome. -/
theorem tradingCycle_outcome_set_witness :
    (((TradeOutcome.takeProfit, (1959 / 400 : ℚ)).1 = TradeOutcome.takeProfit ∨
      (TradeOutcome.takeProfit, (1959 / 400 : ℚ)).1 = TradeOutcome.stopLoss ∨
      (TradeOutcome.takeProfit, (1959 / 400 : ℚ)).1 = TradeOutcome.error)) ∧
    (TradeOutcome.takeProfit, (1959 / 400 : ℚ)).1 ≠ TradeOutcome.timeout :=
  tradingCycle_outcome_set 100000 baseEnv (TradeOutcome.takeProfit, 1959 / 400)
    (by norm_num [tradingCycle, tradeBody, buyLeg, fallbackBuy, pollBuy, numOr,
      buyVolume, monitor, sellLeg, sellOutcome, calculateProfitRate, FEE_RATE,
      baseEnv, okBuyInfo, okSellInfo])

/-- The gains and losses accumulated by the RSI loop are nonnegative, from
any nonnegative accumulator. -/
theorem glFold_nonneg (prices : List ℚ) (idxs : List ℕ) (g l : ℚ)
    (hg : 0 ≤ g) (hl : 0 ≤ l) :
    0 ≤ (idxs.foldl (glStep prices) (g, l)).1 ∧
    0 ≤ (idxs.foldl (glStep prices) (g, l)).2 := by
  induction idxs generalizing g l with
  | nil => exact ⟨hg, hl⟩
  | cons i rest ih =>
    rw [List.foldl_cons]
    by_cases hd : 0 < prices.getD (i - 1) 0 - prices.getD i 0
    · have hstep : glStep prices (g, l) i =
          (g + (prices.getD (i - 1) 0 - prices.getD i 0), l) := if_pos hd
      rw [hstep]
      exact ih _ _ (by linarith) hl
    · have hstep : glStep prices (g, l) i =
          (g, l - (prices.getD (i - 1) 0 - prices.getD i 0)) := if_neg hd
      rw [hstep]
      push_neg at hd
      exact ih _ _ hg (by linarith)

/-- Both components of `gainsLosses` are nonnegative. -/
theorem gainsLosses_nonneg (prices : List ℚ) (period : ℕ) :
    0 ≤ (gainsLosses prices period).1 ∧ 0 ≤ (gainsLosses prices period).2 :=
  glFold_nonneg prices _ 0 0 le_rfl le_rfl

/-- C5: for every closes list with at least `period + 1` elements,
`calculateRSI` returns a value in `[0, 100]`, equal to `100` iff the
average loss over the window is `0`; for shorter lists it returns the
`null` sentinel (and, being a total function, never throws). -/
theorem rsi_bounds (prices : List ℚ) (period : ℕ) :
    (period + 1 ≤ prices.length →
      ∀ v : ℚ, calculateRSI prices period = some v →
        0 ≤ v ∧ v ≤ 100 ∧ (v = 100 ↔ avgLoss prices period = 0)) ∧
    (period + 1 ≤ prices.length → (calculateRSI prices period).isSome = true) ∧
    (prices.length < period + 1 → calculateRSI prices period = none) := by
  have hal : 0 ≤ avgLoss prices period :=
    div_nonneg (gainsLosses_nonneg prices period).2 (Nat.cast_nonneg _)
  have hag : 0 ≤ avgGain prices period :=
    div_nonneg (gainsLosses_nonneg prices period).1 (Nat.cast_nonneg _)
  refine ⟨?_, ?_, ?_⟩
  · intro hlen v hv
    unfold calculateRSI at hv
    rw [if_neg (by omega)] at hv
    by_cases h0 : avgLoss prices period = 0
    · rw [if_pos h0, Option.some.injEq] at hv
      subst hv
      norm_num [h0]
    · rw [if_neg h0, Option.some.injEq] at hv
      subst hv
      have hlpos : 0 < avgLoss prices period := lt_of_le_of_ne hal (Ne.symm h0)
      have hrs : 0 ≤ avgGain prices period / avgLoss prices period :=
        div_nonneg hag hlpos.le
      have h1 : (0 : ℚ) < 1 + avgGain prices period / avgLoss prices period := by
        linarith
      have hle : 100 / (1 + avgGain prices period / avgLoss prices period) ≤ 100 :=
        div_le_self (by norm_num) (by linarith)
      have hpos : 0 < 100 / (1 + avgGain prices period / avgLoss prices period) :=
        div_pos (by norm_num) h1
      refine ⟨by linarith, by linarith, ?_⟩
      constructor
      · intro h100
        exfalso
        have : 100 / (1 + avgGain prices period / avgLoss prices period) = 0 := by
          linarith
        linarith
      · intro h
        exact absurd h h0
  · intro hlen
    unfold calculateRSI
    rw [if_neg (by omega)]
    by_cases h0 : avgLoss prices period = 0 <;> simp [h0]
  · intro hlen
    unfold calculateRSI
    rw [if_pos hlen]

/-- Witness for C5: `[3, 1]` with `period = 1` has no losses, so the RSI
is exactly `100`; `[3]` with `period = 1` is too short. -/
theorem rsi_bounds_witness :
    (0 ≤ (100 : ℚ) ∧ (100 : ℚ) ≤ 100 ∧ ((100 : ℚ) = 100 ↔ avgLoss [3, 1] 1 = 0)) ∧
    (calculateRSI [3, 1] 1).isSome = true ∧
    calculateRSI [3] 1 = none :=
  ⟨(rsi_bounds [3, 1] 1).1 (by simp) 100
      (by norm_num [calculateRSI, avgLoss, avgGain, gainsLosses, glStep,
        List.range']),
   (rsi_bounds [3, 1] 1).2.1 (by simp),
   (rsi_bounds [3] 1).2.2 (by simp)⟩

/-- A list of nonnegative rationals sums to zero iff every element is
zero. -/
theorem list_sum_eq_zero_iff (l : List ℚ) (h : ∀ x ∈ l, 0 ≤ x) :
    l.sum = 0 ↔ ∀ x ∈ l, x = 0 := by
  induction l with
  | nil => simp
  | cons a t ih =>
    have ha : 0 ≤ a := h a (List.mem_cons_self a t)
    have ht : ∀ x ∈ t, 0 ≤ x := fun x hx => h x (List.mem_cons_of_mem a hx)
    have hts : 0 ≤ t.sum := List.sum_nonneg ht
    rw [List.sum_cons]
    constructor
    · intro h0
      have ha0 : a = 0 := by linarith
      have hts0 : t.sum = 0 := by linarith
      intro x hx
      rcases List.mem_cons.mp hx with rfl | hx'
      · exact ha0
      · exact (ih ht).mp hts0 x hx'
    · intro hall
      rw [hall a (List.mem_cons_self a t), zero_add]
      exact (ih ht).mpr fun x hx => hall x (List.mem_cons_of_mem a hx)

/-- A list whose elements all equal `c` sums to `length * c`. -/
theorem list_sum_const (l : List ℚ) (c : ℚ) (h : ∀ x ∈ l, x = c) :
    l.sum = l.length * c := by
  induction l with
  | nil => simp
  | cons a t ih =>
    rw [List.sum_cons, List.length_cons,
      ih fun x hx => h x (List.mem_cons_of_mem a hx),
      h a (List.mem_cons_self a t)]
    push_cast
    ring

/-- C6: whenever `calculateBollinger` returns a non-null result, the bands
satisfy `lower ≤ middle ≤ upper`, and the bandwidth is `0` iff all prices
in the period-length window are equal. -/
theorem bollinger_band_order (prices : List ℚ) (period : ℕ)
    (bb : BollingerBands)
    (h : calculateBollinger prices period = some bb) :
    bb.lower ≤ bb.middle ∧ bb.middle ≤ bb.upper ∧
    (bb.bandwidth = 0 ↔
      ∀ p ∈ prices.take period, ∀ q ∈ prices.take period, p = q) := by
  unfold calculateBollinger at h
  split at h
  · exact absurd h (by simp)
  next sma heq =>
    split at h
    · exact absurd h (by simp)
    next hsne =>
      rw [Option.some.injEq] at h
      subst h
      have hlen : ¬ prices.length < period := by
        by_contra hc
        unfold calculateSMA at heq
        rw [if_pos hc] at heq
        exact Option.noConfusion heq
      have hsma_eq : sma = (prices.take period).sum / period := by
        unfold calculateSMA at heq
        rw [if_neg hlen, Option.some.injEq] at heq
        exact heq.symm
      have hperiod : period ≠ 0 := by
        intro hp
        subst hp
        exact hsne (by simp [hsma_eq])
      have hWlen : (prices.take period).length = period := by
        rw [List.length_take]
        omega
      have hpq : ((period : ℚ)) ≠ 0 := Nat.cast_ne_zero.mpr hperiod
      set W := prices.take period with hW
      set vq : ℚ := ((W.map fun p => (p - sma) ^ 2).sum / period) with hvq
      have hvq0 : 0 ≤ vq := by
        apply div_nonneg _ (Nat.cast_nonneg _)
        apply List.sum_nonneg
        intro x hx
        rcases List.mem_map.mp hx with ⟨p, _, rfl⟩
        positivity
      have hs0 : 0 ≤ Real.sqrt ((vq : ℚ) : ℝ) := Real.sqrt_nonneg _
      refine ⟨by simp only; nlinarith, by simp only; nlinarith, ?_⟩
      simp only
      have hcast : ((sma : ℝ)) ≠ 0 := by
        exact_mod_cast hsne
      have key : (((sma : ℝ) + Real.sqrt ((vq : ℚ) : ℝ) * 2 -
            ((sma : ℝ) - Real.sqrt ((vq : ℚ) : ℝ) * 2)) / (sma : ℝ) * 100 = 0) ↔
          vq = 0 := by
        have hnum : (sma : ℝ) + Real.sqrt ((vq : ℚ) : ℝ) * 2 -
            ((sma : ℝ) - Real.sqrt ((vq : ℚ) : ℝ) * 2) =
            Real.sqrt ((vq : ℚ) : ℝ) * 4 := by ring
        rw [hnum]
        constructor
        · intro h0
          rcases mul_eq_zero.mp h0 with h1 | h1
          · rcases div_eq_zero_iff.mp h1 with h2 | h2
            · rcases mul_eq_zero.mp h2 with h3 | h3
              · have hle : ((vq : ℚ) : ℝ) ≤ 0 := Real.sqrt_eq_zero'.mp h3
                have : ((vq : ℚ) : ℝ) = 0 := le_antisymm hle (by exact_mod_cast hvq0)
                exact_mod_cast this
              · norm_num at h3
            · exact absurd h2 hcast
          · norm_num at h1
        · intro h0
          rw [h0]
          norm_num
      rw [key]
      have hsum : vq = 0 ↔ ∀ p ∈ W, p = sma := by
        rw [hvq, div_eq_zero_iff]
        constructor
        · intro h0
          rcases h0 with h0 | h0
          · intro p hp
            have hz := (list_sum_eq_zero_iff _ ?_).mp h0 ((p - sma) ^ 2)
              (List.mem_map.mpr ⟨p, hp, rfl⟩)
            · have : p - sma = 0 := by
                exact pow_eq_zero_iff (by norm_num) |>.mp hz
              linarith
            · intro x hx
              rcases List.mem_map.mp hx with ⟨q, _, rfl⟩
              positivity
          · exact absurd h0 hpq
        · intro hall
          left
          rw [list_sum_eq_zero_iff]
          · intro x hx
            rcases List.mem_map.mp hx with ⟨q, hq, rfl⟩
            rw [hall q hq]
            ring
          · intro x hx
            rcases List.mem_map.mp hx with ⟨q, _, rfl⟩
            positivity
      rw [hsum]
      constructor
      · intro hall p hp q hq
        rw [hall p hp, hall q hq]
      · intro hpair p hp
        have hne : W ≠ [] := by
          intro he
          rw [he] at hWlen
          exact hperiod (by simpa using hWlen.symm)
        obtain ⟨c, hc⟩ := List.exists_mem_of_ne_nil W hne
        have hallc : ∀ x ∈ W, x = c := fun x hx => hpair x hx c hc
        have hsmac : sma = c := by
          rw [hsma_eq, list_sum_const W c hallc, hWlen]
          field_simp
        rw [hpair p hp c hc, hsmac]

/-- Witness for C6: the window `[3]` (prices `[3, 7]`, period `1`) has all
prices equal, giving equal bands and zero bandwidth. -/
theorem bollinger_band_order_witness :
    (3 : ℝ) ≤ 3 ∧ (3 : ℝ) ≤ 3 ∧
    ((0 : ℝ) = 0 ↔
      ∀ p ∈ ([3, 7] : List ℚ).take 1, ∀ q ∈ ([3, 7] : List ℚ).take 1, p = q) :=
  bollinger_band_order [3, 7] 1 ⟨3, 3, 3, 0⟩
    (by norm_num [calculateBollinger, calculateSMA])
